import Mathlib

/-!
Verification development for the `preview_encoded_file` repository: a React
modal (`src/index.tsx`, component `PreviewDocumentModal`) that previews a
fetched file by detecting its type from a MIME string and normalizing a
heterogeneous payload into a displayable resource locator, plus a companion
image pan/zoom viewer (`ImageZoomViewer`).

The embedding below translates the component's pure helpers
(`detectFileType`, `getMimeType`), its two `useEffect` blocks (normalization
with cleanup, and release-on-close), its render branching, and the pan/zoom
event handlers into executable Lean definitions.  React's effect semantics
(dependency comparison, stale-closure capture in the cleanup, re-render
cascades triggered by `setState`) are modelled explicitly; the browser's
object-URL registry (`URL.createObjectURL` / `URL.revokeObjectURL`) is
modelled as a host with a fresh-name counter and a list of live URLs.
JavaScript string primitives `startsWith` / `includes` are modelled as
character-list prefix / infix tests, and JS truthiness of strings
(`""` is falsy) is modelled explicitly.
-/

namespace Preview

/-- JS `String.prototype.startsWith`: code-unit prefix test. -/
def jsStartsWith (s pre : String) : Bool :=
  pre.toList.isPrefixOf s.toList

/-- JS `String.prototype.includes`: contiguous substring test. -/
def jsIncludes (s sub : String) : Bool :=
  decide (sub.toList <:+: s.toList)

/-- JS truthiness of a string: `""` is falsy, every other string truthy. -/
def jsTruthyStr (s : String) : Bool :=
  !(s == "")

/-- JS truthiness of an optional string (`undefined` is falsy). -/
def jsOptTruthy : Option String → Bool
  | some s => jsTruthyStr s
  | none => false

/-- The four detected kinds of `detectFileType` in `src/index.tsx`. -/
inductive FileType
  | image
  | pdf
  | document
  | unknown
deriving DecidableEq, Repr

/-- `detectFileType` from `src/index.tsx` lines 34-61: detect the file kind
from an optional MIME string.  The outer `if (mimeType)` is JS truthiness,
so an absent or empty hint yields `unknown`. -/
def detectFileType (mimeType : Option String) : FileType :=
  match mimeType with
  | some m =>
    if jsTruthyStr m then
      if jsStartsWith m "image/" then FileType.image
      else if m == "application/pdf" then FileType.pdf
      else if jsIncludes m "document" || jsIncludes m "word" ||
          jsIncludes m "text" || jsIncludes m "spreadsheet" ||
          jsIncludes m "presentation" ||
          m == "application/vnd.openxmlformats-officedocument.wordprocessingml.document" ||
          m == "application/vnd.openxmlformats-officedocument.spreadsheetml.sheet" ||
          m == "application/vnd.openxmlformats-officedocument.presentationml.presentation" ||
          m == "application/msword" ||
          m == "application/vnd.ms-excel" ||
          m == "application/vnd.ms-powerpoint" then FileType.document
      else FileType.unknown
    else FileType.unknown
  | none => FileType.unknown

/-- `getMimeType` from `src/index.tsx` lines 64-80: return the provided MIME
type when truthy (present and non-empty), else a per-kind default via the
`switch` on the detected type. -/
def getMimeType (detectedType : FileType) (providedMimeType : Option String) :
    String :=
  if jsOptTruthy providedMimeType then providedMimeType.getD ""
  else
    match detectedType with
    | FileType.pdf => "application/pdf"
    | FileType.image => "image/jpeg"
    | FileType.document => "application/octet-stream"
    | FileType.unknown => "application/octet-stream"

/-- The inner value of a `{ data: ... }` wrapper payload: `mediaFile.data`
is either a string (prefixed as base64 text) or a binary value (wrapped into
a `Blob`).  Truthiness of the field decides whether the wrapper branch is
taken. -/
inductive MediaData
  | str (s : String)
  | bin (content : List Nat)
deriving DecidableEq, Repr

/-- The shapes of `mediaFile` distinguished by the normalization effect in
`src/index.tsx` lines 93-129: a string, a `Blob`, an `ArrayBuffer`, an
object exposing a `data` field (possibly absent), any other truthy value
(matching no branch), or a nullish/falsy value (skipping the effect's guard
`if (mediaFile && isOpen)`). -/
inductive MediaFile
  | str (s : String)
  | blob (content : List Nat)
  | buffer (content : List Nat)
  | obj (data : Option MediaData)
  | other
  | nullish
deriving DecidableEq, Repr

/-- JS truthiness of `mediaFile.data`. -/
def MediaData.truthy : MediaData → Bool
  | MediaData.str s => jsTruthyStr s
  | MediaData.bin _ => true

/-- JS truthiness of `mediaFile` (empty string and nullish are falsy). -/
def MediaFile.truthy : MediaFile → Bool
  | MediaFile.str s => jsTruthyStr s
  | MediaFile.nullish => false
  | _ => true

/-- The browser-level object-URL registry (`URL.createObjectURL` /
`URL.revokeObjectURL`): a fresh-name counter and the list of currently live
object URLs. -/
structure Host where
  nextUrl : Nat
  live : List String
deriving DecidableEq, Repr

/-- The opaque object-URL string the browser mints for the `n`-th
allocation: `"blob:"` followed by an opaque suffix (modelled as `n` copies
of `'u'`), distinct for distinct allocations. -/
def mkBlobUrl (n : Nat) : String :=
  "blob:" ++ String.mk (List.replicate n 'u')

/-- `URL.createObjectURL`: mint a fresh object URL and add it to the live
set. -/
def createObjectURL (h : Host) : String × Host :=
  (mkBlobUrl h.nextUrl,
    { nextUrl := h.nextUrl + 1, live := mkBlobUrl h.nextUrl :: h.live })

/-- `URL.revokeObjectURL`: remove a URL from the live set (no-op when it is
not live). -/
def revokeObjectURL (h : Host) (u : String) : Host :=
  { h with live := h.live.filter (fun v => v ≠ u) }

/-- The component state of `PreviewDocumentModal` that the claims concern:
`documentUrl`, `isLoading`, `error`, `fileType` (`src/index.tsx`
lines 26-31). -/
structure ModalState where
  documentUrl : String
  isLoading : Bool
  error : String
  fileType : FileType
deriving DecidableEq, Repr

/-- Initial component state (`useState` initializers). -/
def ModalState.init : ModalState :=
  { documentUrl := "", isLoading := false, error := "", fileType := FileType.unknown }

/-- Net state update of a successful normalization branch: the effect sets
`isLoading` to `true`, clears `error`, stores the detected type, sets
`documentUrl`, and the `finally` clears `isLoading` again. -/
def setSuccess (s : ModalState) (ft : FileType) (url : String) : ModalState :=
  { s with documentUrl := url, isLoading := false, error := "", fileType := ft }

/-- Net state update of the unsupported-payload branch: `documentUrl` is
left untouched, `error` is set, the detected type stored, loading cleared. -/
def setUnsupported (s : ModalState) (ft : FileType) : ModalState :=
  { s with error := "Unsupported media file format", isLoading := false, fileType := ft }

/-- The body of the normalization effect (`src/index.tsx` lines 82-136),
as a total function on the render snapshot: guard `if (mediaFile && isOpen)`,
detect the type, then branch on the payload's shape, setting `documentUrl`
or `error` and finally clearing `isLoading`.  Totality (the function always
returns a state instead of raising) reflects the `try`/`catch`/`finally`
wrapper: no branch propagates a fault to the caller. -/
def effect1Body (mediaFile : MediaFile) (isOpen : Bool)
    (mimeType : Option String) (s : ModalState) (h : Host) :
    ModalState × Host :=
  if mediaFile.truthy && isOpen then
    let detectedType := detectFileType mimeType
    match mediaFile with
    | MediaFile.str m =>
      if jsStartsWith m "data:" then (setSuccess s detectedType m, h)
      else
        (setSuccess s detectedType
          ("data:" ++ getMimeType detectedType mimeType ++ ";base64," ++ m), h)
    | MediaFile.blob _ =>
      let r := createObjectURL h
      (setSuccess s detectedType r.1, r.2)
    | MediaFile.buffer _ =>
      let r := createObjectURL h
      (setSuccess s detectedType r.1, r.2)
    | MediaFile.obj data =>
      match data with
      | some d =>
        if d.truthy then
          match d with
          | MediaData.str ds =>
            (setSuccess s detectedType
              ("data:" ++ getMimeType detectedType mimeType ++ ";base64," ++ ds), h)
          | MediaData.bin _ =>
            let r := createObjectURL h
            (setSuccess s detectedType r.1, r.2)
        else (setUnsupported s detectedType, h)
      | none => (setUnsupported s detectedType, h)
    | MediaFile.other => (setUnsupported s detectedType, h)
    | MediaFile.nullish => (setUnsupported s detectedType, h)
  else (s, h)

/-- The cleanup returned by the normalization effect (`src/index.tsx`
lines 139-143).  `capturedUrl` is the `documentUrl` the cleanup closed over:
the value from the render at which the effect last ran (the dependency
array omits `documentUrl`, per the `eslint-disable` in the source). -/
def effect1Cleanup (capturedUrl : String) (h : Host) : Host :=
  if jsTruthyStr capturedUrl && jsStartsWith capturedUrl "blob:" then
    revokeObjectURL h capturedUrl
  else h

/-- The body of the release-on-close effect (`src/index.tsx` lines 148-153):
when the modal is closed and the current `documentUrl` is a live blob URL,
revoke it and clear the state.  `snapUrl` is the `documentUrl` of the render
this run belongs to. -/
def effect2Body (isOpen : Bool) (snapUrl : String) (s : ModalState)
    (h : Host) : ModalState × Host :=
  if !isOpen && jsTruthyStr snapUrl && jsStartsWith snapUrl "blob:" then
    ({ s with documentUrl := "" }, revokeObjectURL h snapUrl)
  else (s, h)

/-- The props of `PreviewDocumentModal` relevant to the effects. -/
structure Props where
  mediaFile : MediaFile
  isOpen : Bool
  mimeType : Option String
deriving DecidableEq, Repr

/-- The full instance state: component state, the object-URL host, and the
bookkeeping React keeps per effect (whether it ever ran, the dependency
values of its last run, and — for the normalization effect — the
`documentUrl` its pending cleanup captured). -/
structure Sys where
  s : ModalState
  host : Host
  mounted1 : Bool
  deps1 : MediaFile × Bool × Option String
  cleanupUrl : String
  mounted2 : Bool
  deps2 : Bool × String
deriving DecidableEq, Repr

/-- Run the normalization effect of one commit: if its dependencies
`[mediaFile, isOpen, mimeType]` changed (or it never ran), first run the
pending cleanup, then the body; record the new dependencies and capture the
snapshot `documentUrl` in the new cleanup. -/
def step1 (p : Props) (snapUrl : String) (σ : Sys) : Sys :=
  if σ.mounted1 = false ∨ σ.deps1 ≠ (p.mediaFile, p.isOpen, p.mimeType) then
    let h1 := effect1Cleanup σ.cleanupUrl σ.host
    let r := effect1Body p.mediaFile p.isOpen p.mimeType σ.s h1
    { s := r.1
      host := r.2
      mounted1 := true
      deps1 := (p.mediaFile, p.isOpen, p.mimeType)
      cleanupUrl := snapUrl
      mounted2 := σ.mounted2
      deps2 := σ.deps2 }
  else σ

/-- Run the release-on-close effect of one commit: if its dependencies
`[isOpen, documentUrl]` changed (or it never ran), run its body on the
render snapshot. -/
def step2 (isOpen : Bool) (snapUrl : String) (σ : Sys) : Sys :=
  if σ.mounted2 = false ∨ σ.deps2 ≠ (isOpen, snapUrl) then
    let r := effect2Body isOpen snapUrl σ.s σ.host
    { σ with
      s := r.1
      host := r.2
      mounted2 := true
      deps2 := (isOpen, snapUrl) }
  else σ

/-- One React commit: take the render snapshot of `documentUrl`, then run
the two effects in declaration order against that snapshot. -/
def commitOnce (p : Props) (σ : Sys) : Sys :=
  step2 p.isOpen σ.s.documentUrl (step1 p σ.s.documentUrl σ)

/-- Process one prop change: commit, then let `setState`-triggered
re-renders cascade until the effects reach a fixpoint (four commits always
suffice for this component; at the fixpoint a commit is the identity). -/
def propStep (p : Props) (σ : Sys) : Sys :=
  commitOnce p (commitOnce p (commitOnce p (commitOnce p σ)))

/-- The instance state before the first render: no effect has run, the
host registry is empty. -/
def Sys.init : Sys :=
  { s := ModalState.init, host := { nextUrl := 0, live := [] },
    mounted1 := false, deps1 := (MediaFile.nullish, false, none),
    cleanupUrl := "", mounted2 := false, deps2 := (false, "") }

/-- Mount the component and process a sequence of prop changes. -/
def run (ps : List Props) : Sys :=
  ps.foldl (fun σ p => propStep p σ) Sys.init

/-- What the modal shows (`src/index.tsx` lines 242-274 and
`renderPreviewContent`): the loading spinner, the error display (whose
download fallback is offered exactly when `documentUrl` is truthy), nothing
when there is no locator, or the preview for the detected kind. -/
inductive RenderView
  | loading
  | errorView (message : String) (downloadUrl : Option String)
  | empty
  | content (kind : FileType) (url : String)
deriving DecidableEq, Repr

/-- The render branching of `PreviewDocumentModal`. -/
def render (s : ModalState) : RenderView :=
  if s.isLoading then RenderView.loading
  else if jsTruthyStr s.error then
    RenderView.errorView s.error
      (if jsTruthyStr s.documentUrl then some s.documentUrl else none)
  else if !jsTruthyStr s.documentUrl then RenderView.empty
  else RenderView.content s.fileType s.documentUrl

/-! ### Pan/zoom controller (`ImageZoomViewer`, `src/unnamed/part_001`)

Scale and positions are modelled over `ℚ`: every value the handlers produce
is a multiple of the 0.25 step within [0.5, 5] plus integer pixel deltas,
all of which binary floating point represents exactly, so the rational
model is faithful. -/

/-- A 2D point/vector ({x, y} objects in the source). -/
structure Vec2 where
  x : ℚ
  y : ℚ
deriving DecidableEq, Repr

/-- The state of `ImageZoomViewer` (`src/unnamed/part_001` lines 14-18):
scale, position (the pan offset), the drag flag, the drag anchor and the
position captured at drag start. -/
structure ZoomState where
  scale : ℚ
  position : Vec2
  isDragging : Bool
  dragStart : Vec2
  lastPosition : Vec2
deriving DecidableEq, Repr

/-- `minScale = 0.5` from the source. -/
def minScale : ℚ := 1/2

/-- `maxScale = 5` from the source. -/
def maxScale : ℚ := 5

/-- `scaleStep = 0.25` from the source. -/
def scaleStep : ℚ := 1/4

/-- The `useState` initializers (lines 14-18). -/
def ZoomState.init : ZoomState :=
  { scale := 1, position := ⟨0, 0⟩, isDragging := false,
    dragStart := ⟨0, 0⟩, lastPosition := ⟨0, 0⟩ }

/-- `handleZoomIn` (lines 33-35). -/
def handleZoomIn (s : ZoomState) : ZoomState :=
  { s with scale := min (s.scale + scaleStep) maxScale }

/-- `handleZoomOut` (lines 37-39). -/
def handleZoomOut (s : ZoomState) : ZoomState :=
  { s with scale := max (s.scale - scaleStep) minScale }

/-- `handleReset` (lines 41-44). -/
def handleReset (s : ZoomState) : ZoomState :=
  { s with scale := 1, position := ⟨0, 0⟩ }

/-- `handleMouseDown` (lines 46-56): begin a drag only when `scale > 1`. -/
def handleMouseDown (s : ZoomState) (x y : ℚ) : ZoomState :=
  if s.scale > 1 then
    { s with isDragging := true, dragStart := ⟨x, y⟩, lastPosition := s.position }
  else s

/-- `handleMouseMove` (lines 58-71): update the offset only while dragging
with `scale > 1`. -/
def handleMouseMove (s : ZoomState) (x y : ℚ) : ZoomState :=
  if s.isDragging ∧ s.scale > 1 then
    { s with position := ⟨s.lastPosition.x + (x - s.dragStart.x),
                          s.lastPosition.y + (y - s.dragStart.y)⟩ }
  else s

/-- `handleMouseUp` / `onMouseLeave` (lines 73-75). -/
def handleMouseUp (s : ZoomState) : ZoomState :=
  { s with isDragging := false }

/-- `handleWheel` (lines 77-83): step by `deltaY > 0 ? -scaleStep :
scaleStep`, clamped into [minScale, maxScale]. -/
def handleWheel (s : ZoomState) (deltaY : ℚ) : ZoomState :=
  let delta := if deltaY > 0 then -scaleStep else scaleStep
  { s with scale := max minScale (min maxScale (s.scale + delta)) }

/-- `handleTouchStart` (lines 86-97): single-touch drag start when
`scale > 1`. -/
def handleTouchStart (s : ZoomState) (touches : Nat) (x y : ℚ) : ZoomState :=
  if touches = 1 ∧ s.scale > 1 then
    { s with isDragging := true, dragStart := ⟨x, y⟩, lastPosition := s.position }
  else s

/-- `handleTouchMove` (lines 99-114). -/
def handleTouchMove (s : ZoomState) (touches : Nat) (x y : ℚ) : ZoomState :=
  if s.isDragging ∧ touches = 1 ∧ s.scale > 1 then
    { s with position := ⟨s.lastPosition.x + (x - s.dragStart.x),
                          s.lastPosition.y + (y - s.dragStart.y)⟩ }
  else s

/-- `handleTouchEnd` (lines 116-118). -/
def handleTouchEnd (s : ZoomState) : ZoomState :=
  { s with isDragging := false }

/-- The discrete input events of the controller. -/
inductive ZoomEvent
  | zoomIn
  | zoomOut
  | reset
  | wheel (deltaY : ℚ)
  | mouseDown (x y : ℚ)
  | mouseMove (x y : ℚ)
  | mouseUp
  | mouseLeave
  | touchStart (touches : Nat) (x y : ℚ)
  | touchMove (touches : Nat) (x y : ℚ)
  | touchEnd
deriving DecidableEq

/-- Dispatch an event to its handler. -/
def handleEvent (s : ZoomState) : ZoomEvent → ZoomState
  | ZoomEvent.zoomIn => handleZoomIn s
  | ZoomEvent.zoomOut => handleZoomOut s
  | ZoomEvent.reset => handleReset s
  | ZoomEvent.wheel d => handleWheel s d
  | ZoomEvent.mouseDown x y => handleMouseDown s x y
  | ZoomEvent.mouseMove x y => handleMouseMove s x y
  | ZoomEvent.mouseUp => handleMouseUp s
  | ZoomEvent.mouseLeave => handleMouseUp s
  | ZoomEvent.touchStart t x y => handleTouchStart s t x y
  | ZoomEvent.touchMove t x y => handleTouchMove s t x y
  | ZoomEvent.touchEnd => handleTouchEnd s

/-- One controller step: run the handler, then the `useEffect` with
dependency `[scale]` (`src/unnamed/part_001` lines 27-31), which fires when
the scale changed and resets the position to the origin when the new scale
is exactly 1. -/
def zoomStep (s : ZoomState) (e : ZoomEvent) : ZoomState :=
  let t := handleEvent s e
  if t.scale ≠ s.scale ∧ t.scale = 1 then { t with position := ⟨0, 0⟩ } else t

/-- Run the controller from its initial state over an event sequence. -/
def zoomRun (evs : List ZoomEvent) : ZoomState :=
  evs.foldl zoomStep ZoomState.init

/-! ### Bridging lemmas for the JS string primitives -/

theorem jsStartsWith_eq_true {s p : String} :
    jsStartsWith s p = true ↔ p.toList <+: s.toList := by
  simp [jsStartsWith, List.isPrefixOf_iff_prefix]

theorem jsIncludes_eq_true {s sub : String} :
    jsIncludes s sub = true ↔ sub.toList <:+: s.toList := by
  simp [jsIncludes]

theorem jsTruthyStr_eq_true {s : String} :
    jsTruthyStr s = true ↔ s ≠ "" := by
  simp [jsTruthyStr]

theorem mkBlobUrl_startsBlob (n : Nat) :
    jsStartsWith (mkBlobUrl n) "blob:" = true := by
  rw [jsStartsWith_eq_true]
  have h : (mkBlobUrl n).toList = "blob:".toList ++ List.replicate n 'u' := rfl
  rw [h]
  exact List.prefix_append _ _

theorem mkBlobUrl_ne_empty (n : Nat) : mkBlobUrl n ≠ "" := by
  intro h
  have h2 : (mkBlobUrl n).toList = "".toList := by rw [h]
  have h3 : (mkBlobUrl n).toList = "blob:".toList ++ List.replicate n 'u' := rfl
  rw [h3] at h2
  simp [String.toList] at h2

theorem mkBlobUrl_inj {n m : Nat} (h : mkBlobUrl n = mkBlobUrl m) : n = m := by
  have h2 : (mkBlobUrl n).toList = (mkBlobUrl m).toList := by rw [h]
  have h3 : "blob:".toList ++ List.replicate n 'u' =
      "blob:".toList ++ List.replicate m 'u' := h2
  have h4 : List.replicate n 'u' = List.replicate m 'u' :=
    List.append_cancel_left h3
  simpa using congrArg List.length h4

/-! ### Claim C2: the type detector's decision table -/

/-- The fixed legacy/OOXML office MIME strings listed in `detectFileType`. -/
def officeMimeTypes : List String :=
  ["application/vnd.openxmlformats-officedocument.wordprocessingml.document",
   "application/vnd.openxmlformats-officedocument.spreadsheetml.sheet",
   "application/vnd.openxmlformats-officedocument.presentationml.presentation",
   "application/msword",
   "application/vnd.ms-excel",
   "application/vnd.ms-powerpoint"]

/-- The hint contains one of the five document-ish substrings. -/
def mentionsDocumentWords (m : String) : Prop :=
  "document".toList <:+: m.toList ∨ "word".toList <:+: m.toList ∨
    "text".toList <:+: m.toList ∨ "spreadsheet".toList <:+: m.toList ∨
    "presentation".toList <:+: m.toList

instance (m : String) : Decidable (mentionsDocumentWords m) := by
  unfold mentionsDocumentWords
  infer_instance

theorem mentionsDocumentWords_ne_empty {m : String}
    (h : mentionsDocumentWords m) : m ≠ "" := by
  rintro rfl
  rcases h with h | h | h | h | h <;> simpa [String.toList] using h.length_le

/-- C2: `detectFileType` is a pure total function on an optional MIME
string.  An absent hint yields `unknown`; a hint starting with `image/`
yields `image`; the hint `application/pdf` yields `pdf`; a hint containing
one of the substrings "document", "word", "text", "spreadsheet",
"presentation" (and not matching an earlier rule) or exactly equal to one
of the fixed legacy/OOXML office MIME strings yields `document`; every
other hint yields `unknown`. -/
theorem detectFileType_spec (m : String) :
    detectFileType none = FileType.unknown
    ∧ ("image/".toList <+: m.toList → detectFileType (some m) = FileType.image)
    ∧ (m = "application/pdf" → detectFileType (some m) = FileType.pdf)
    ∧ ((¬ "image/".toList <+: m.toList ∧ m ≠ "application/pdf" ∧
          mentionsDocumentWords m) ∨ m ∈ officeMimeTypes →
        detectFileType (some m) = FileType.document)
    ∧ (¬ "image/".toList <+: m.toList ∧ m ≠ "application/pdf" ∧
        ¬ mentionsDocumentWords m ∧ m ∉ officeMimeTypes →
        detectFileType (some m) = FileType.unknown) := by
  refine ⟨rfl, ?_, ?_, ?_, ?_⟩
  · intro hpfx
    have hne : m ≠ "" := by
      rintro rfl
      simpa [String.toList] using hpfx.length_le
    have h1 : jsTruthyStr m = true := jsTruthyStr_eq_true.mpr hne
    have h2 : jsStartsWith m "image/" = true := jsStartsWith_eq_true.mpr hpfx
    simp [detectFileType, h1, h2]
  · rintro rfl
    decide
  · rintro (⟨hnp, hnpdf, hdoc⟩ | hoffice)
    · have hne : m ≠ "" := mentionsDocumentWords_ne_empty hdoc
      have h1 : jsTruthyStr m = true := jsTruthyStr_eq_true.mpr hne
      have h2 : jsStartsWith m "image/" = false := by
        cases h : jsStartsWith m "image/"
        · rfl
        · exact absurd (jsStartsWith_eq_true.mp h) hnp
      have h3 : (m == "application/pdf") = false := by
        simpa using hnpdf
      rcases hdoc with hd | hd | hd | hd | hd <;>
        simp [detectFileType, h1, h2, h3, jsIncludes_eq_true.mpr hd]
    · have : m = "application/vnd.openxmlformats-officedocument.wordprocessingml.document"
          ∨ m = "application/vnd.openxmlformats-officedocument.spreadsheetml.sheet"
          ∨ m = "application/vnd.openxmlformats-officedocument.presentationml.presentation"
          ∨ m = "application/msword"
          ∨ m = "application/vnd.ms-excel"
          ∨ m = "application/vnd.ms-powerpoint" := by
        simpa [officeMimeTypes] using hoffice
      rcases this with rfl | rfl | rfl | rfl | rfl | rfl <;> decide
  · rintro ⟨hnp, hnpdf, hndoc, hnoff⟩
    by_cases hne : m = ""
    · subst hne; decide
    · have h1 : jsTruthyStr m = true := jsTruthyStr_eq_true.mpr hne
      have h2 : jsStartsWith m "image/" = false := by
        cases h : jsStartsWith m "image/"
        · rfl
        · exact absurd (jsStartsWith_eq_true.mp h) hnp
      have h3 : (m == "application/pdf") = false := by
        simpa using hnpdf
      have hni : ∀ sub : String, ¬ sub.toList <:+: m.toList →
          jsIncludes m sub = false := by
        intro sub hs
        cases h : jsIncludes m sub
        · rfl
        · exact absurd (jsIncludes_eq_true.mp h) hs
      have hd1 : jsIncludes m "document" = false :=
        hni _ fun h => hndoc (Or.inl h)
      have hd2 : jsIncludes m "word" = false :=
        hni _ fun h => hndoc (Or.inr (Or.inl h))
      have hd3 : jsIncludes m "text" = false :=
        hni _ fun h => hndoc (Or.inr (Or.inr (Or.inl h)))
      have hd4 : jsIncludes m "spreadsheet" = false :=
        hni _ fun h => hndoc (Or.inr (Or.inr (Or.inr (Or.inl h))))
      have hd5 : jsIncludes m "presentation" = false :=
        hni _ fun h => hndoc (Or.inr (Or.inr (Or.inr (Or.inr h))))
      have hoffs : m ≠ "application/vnd.openxmlformats-officedocument.wordprocessingml.document"
          ∧ m ≠ "application/vnd.openxmlformats-officedocument.spreadsheetml.sheet"
          ∧ m ≠ "application/vnd.openxmlformats-officedocument.presentationml.presentation"
          ∧ m ≠ "application/msword"
          ∧ m ≠ "application/vnd.ms-excel"
          ∧ m ≠ "application/vnd.ms-powerpoint" := by
        simp [officeMimeTypes] at hnoff
        exact hnoff
      obtain ⟨e1, e2, e3, e4, e5, e6⟩ := hoffs
      simp [detectFileType, h1, h2, h3, hd1, hd2, hd3, hd4, hd5, e1, e2, e3, e4, e5, e6]

/-- Witness for C2: the theorem applied at concrete inputs from every row
of the decision table. -/
theorem detectFileType_spec_witness :
    detectFileType none = FileType.unknown
    ∧ detectFileType (some "image/png") = FileType.image
    ∧ detectFileType (some "application/pdf") = FileType.pdf
    ∧ detectFileType (some "text/plain") = FileType.document
    ∧ detectFileType (some "application/vnd.ms-excel") = FileType.document
    ∧ detectFileType (some "application/zip") = FileType.unknown :=
  ⟨(detectFileType_spec "x").1,
   (detectFileType_spec "image/png").2.1 (by decide),
   (detectFileType_spec "application/pdf").2.2.1 rfl,
   (detectFileType_spec "text/plain").2.2.2.1
     (Or.inl ⟨by decide, by decide, Or.inr (Or.inr (Or.inl (by decide)))⟩),
   (detectFileType_spec "application/vnd.ms-excel").2.2.2.1
     (Or.inr (by decide)),
   (detectFileType_spec "application/zip").2.2.2.2
     ⟨by decide, by decide, by decide, by decide⟩⟩

/-! ### Claim C3: MIME resolution -/

/-- C3: for every detected kind, `getMimeType` returns a non-empty provided
hint unchanged; when the hint is absent or empty it returns the per-kind
default: `application/pdf` for `pdf`, `image/jpeg` for `image`, and
`application/octet-stream` for `document` and `unknown`. -/
theorem getMimeType_spec (k : FileType) (hint : Option String) :
    (∀ s : String, hint = some s → s ≠ "" → getMimeType k hint = s)
    ∧ (hint = none ∨ hint = some "" →
        (k = FileType.pdf → getMimeType k hint = "application/pdf")
        ∧ (k = FileType.image → getMimeType k hint = "image/jpeg")
        ∧ (k = FileType.document ∨ k = FileType.unknown →
            getMimeType k hint = "application/octet-stream")) := by
  constructor
  · rintro s rfl hs
    simp [getMimeType, jsOptTruthy, jsTruthyStr, hs]
  · rintro (rfl | rfl) <;>
      refine ⟨?_, ?_, ?_⟩ <;>
      first
        | (rintro rfl; simp [getMimeType, jsOptTruthy, jsTruthyStr])
        | (rintro (rfl | rfl) <;> simp [getMimeType, jsOptTruthy, jsTruthyStr])

/-- Witness for C3: a non-empty hint wins regardless of kind; the per-kind
defaults apply for an absent or empty hint. -/
theorem getMimeType_spec_witness :
    getMimeType FileType.image (some "application/pdf") = "application/pdf"
    ∧ getMimeType FileType.pdf none = "application/pdf"
    ∧ getMimeType FileType.image (some "") = "image/jpeg"
    ∧ getMimeType FileType.unknown none = "application/octet-stream" :=
  ⟨(getMimeType_spec FileType.image (some "application/pdf")).1 _ rfl (by decide),
   ((getMimeType_spec FileType.pdf none).2 (Or.inl rfl)).1 rfl,
   ((getMimeType_spec FileType.image (some "")).2 (Or.inr rfl)).2.1 rfl,
   ((getMimeType_spec FileType.unknown none).2 (Or.inl rfl)).2.2 (Or.inr rfl)⟩

/-! ### Claim C4: normalization of string payloads

The claim quantifies over every string payload, but the effect's guard
`if (mediaFile && isOpen)` skips the empty string (falsy in JS): for the
payload `""` no locator is synthesized at all, refuting the claim as
stated.  For every non-empty string payload the claimed behavior holds. -/

/-- Counterexample to C4 as stated: for the string payload `""` (which does
not start with `"data:"`), the stored locator is left untouched (here
`"x"`), not set to the synthesized
`"data:" ++ resolveMimeType(kind, hint) ++ ";base64," ++ payload`. -/
theorem string_payload_empty_counterexample :
    ¬ ("data:".toList <+: "".toList)
    ∧ (effect1Body (MediaFile.str "") true none
        { documentUrl := "x", isLoading := false, error := "",
          fileType := FileType.unknown }
        { nextUrl := 0, live := [] }).1.documentUrl = "x"
    ∧ ("x" : String) ≠
        "data:" ++ getMimeType (detectFileType none) none ++ ";base64," ++ "" :=
  ⟨by decide, rfl, by decide⟩

/-- C4 (amended): for every NON-EMPTY string payload, if the payload starts
with `"data:"` the normalizer stores it unchanged as the locator, otherwise
the locator is exactly
`"data:" ++ getMimeType(detectedKind, mimeHint) ++ ";base64," ++ payload`. -/
theorem string_payload_normalization (m : String) (mt : Option String)
    (s : ModalState) (h : Host) (hne : m ≠ "") :
    ("data:".toList <+: m.toList →
      (effect1Body (MediaFile.str m) true mt s h).1.documentUrl = m)
    ∧ (¬ "data:".toList <+: m.toList →
      (effect1Body (MediaFile.str m) true mt s h).1.documentUrl =
        "data:" ++ getMimeType (detectFileType mt) mt ++ ";base64," ++ m) := by
  have htr : (MediaFile.str m).truthy = true := by
    simp [MediaFile.truthy, jsTruthyStr, hne]
  constructor
  · intro hp
    have h2 : jsStartsWith m "data:" = true := jsStartsWith_eq_true.mpr hp
    simp [effect1Body, htr, h2, setSuccess]
  · intro hp
    have h2 : jsStartsWith m "data:" = false := by
      cases hsw : jsStartsWith m "data:"
      · rfl
      · exact absurd (jsStartsWith_eq_true.mp hsw) hp
    simp [effect1Body, htr, h2, setSuccess]

/-- Witness for C4 (amended), the spec's own example: payload `"Zm9v"` with
MIME hint `"image/png"` yields the literal locator
`"data:image/png;base64,Zm9v"`. -/
theorem string_payload_normalization_witness :
    ("Zm9v" : String) ≠ ""
    ∧ (effect1Body (MediaFile.str "Zm9v") true (some "image/png")
        ModalState.init { nextUrl := 0, live := [] }).1.documentUrl =
      "data:image/png;base64,Zm9v" := by
  refine ⟨by decide, ?_⟩
  have h := (string_payload_normalization "Zm9v" (some "image/png")
      ModalState.init { nextUrl := 0, live := [] } (by decide)).2 (by decide)
  rw [h]
  decide

/-! ### Claim C5: the zoom scale never leaves [0.5, 5] -/

theorem zoomStep_scale_eq (s : ZoomState) (e : ZoomEvent) :
    (zoomStep s e).scale = (handleEvent s e).scale := by
  by_cases hc : (handleEvent s e).scale ≠ s.scale ∧ (handleEvent s e).scale = 1
  · show (if (handleEvent s e).scale ≠ s.scale ∧ (handleEvent s e).scale = 1
        then { handleEvent s e with position := ⟨0, 0⟩ } else handleEvent s e).scale =
      (handleEvent s e).scale
    rw [if_pos hc]
  · show (if (handleEvent s e).scale ≠ s.scale ∧ (handleEvent s e).scale = 1
        then { handleEvent s e with position := ⟨0, 0⟩ } else handleEvent s e).scale =
      (handleEvent s e).scale
    rw [if_neg hc]

theorem handleEvent_scale_bounds (s : ZoomState) (e : ZoomEvent)
    (h : 1/2 ≤ s.scale ∧ s.scale ≤ 5) :
    1/2 ≤ (handleEvent s e).scale ∧ (handleEvent s e).scale ≤ 5 := by
  obtain ⟨hlo, hhi⟩ := h
  cases e with
  | zoomIn =>
    refine ⟨?_, ?_⟩
    · show (1/2 : ℚ) ≤ min (s.scale + 1/4) 5
      exact le_min (by linarith) (by norm_num)
    · show min (s.scale + 1/4) (5 : ℚ) ≤ 5
      exact min_le_right _ _
  | zoomOut =>
    refine ⟨?_, ?_⟩
    · show (1/2 : ℚ) ≤ max (s.scale - 1/4) (1/2)
      exact le_max_right _ _
    · show max (s.scale - 1/4) (1/2 : ℚ) ≤ 5
      exact max_le (by linarith) (by norm_num)
  | reset =>
    refine ⟨?_, ?_⟩
    · show (1/2 : ℚ) ≤ 1
      norm_num
    · show (1 : ℚ) ≤ 5
      norm_num
  | wheel d =>
    refine ⟨?_, ?_⟩
    · show (1/2 : ℚ) ≤
        max (1/2) (min 5 (s.scale + if d > 0 then -(1/4 : ℚ) else (1/4 : ℚ)))
      exact le_max_left _ _
    · show max (1/2 : ℚ)
          (min 5 (s.scale + if d > 0 then -(1/4 : ℚ) else (1/4 : ℚ))) ≤ 5
      exact max_le (by norm_num) (min_le_left _ _)
  | mouseDown x y =>
    have hsc : (handleEvent s (ZoomEvent.mouseDown x y)).scale = s.scale := by
      simp only [handleEvent, handleMouseDown]
      split <;> rfl
    rw [hsc]
    exact ⟨hlo, hhi⟩
  | mouseMove x y =>
    have hsc : (handleEvent s (ZoomEvent.mouseMove x y)).scale = s.scale := by
      simp only [handleEvent, handleMouseMove]
      split <;> rfl
    rw [hsc]
    exact ⟨hlo, hhi⟩
  | mouseUp => exact ⟨hlo, hhi⟩
  | mouseLeave => exact ⟨hlo, hhi⟩
  | touchStart t x y =>
    have hsc : (handleEvent s (ZoomEvent.touchStart t x y)).scale = s.scale := by
      simp only [handleEvent, handleTouchStart]
      split <;> rfl
    rw [hsc]
    exact ⟨hlo, hhi⟩
  | touchMove t x y =>
    have hsc : (handleEvent s (ZoomEvent.touchMove t x y)).scale = s.scale := by
      simp only [handleEvent, handleTouchMove]
      split <;> rfl
    rw [hsc]
    exact ⟨hlo, hhi⟩
  | touchEnd => exact ⟨hlo, hhi⟩

theorem foldl_zoomStep_scale_bounds (evs : List ZoomEvent) :
    ∀ s : ZoomState, 1/2 ≤ s.scale ∧ s.scale ≤ 5 →
      1/2 ≤ (evs.foldl zoomStep s).scale ∧ (evs.foldl zoomStep s).scale ≤ 5 := by
  induction evs with
  | nil => intro s h; exact h
  | cons e rest ih =>
    intro s h
    have hstep : 1/2 ≤ (zoomStep s e).scale ∧ (zoomStep s e).scale ≤ 5 := by
      rw [zoomStep_scale_eq]
      exact handleEvent_scale_bounds s e h
    exact ih (zoomStep s e) hstep

/-- C5: starting from scale 1, for every finite sequence of zoom-in,
zoom-out and wheel events (indeed for every event sequence of the
controller), the scale stays within the closed interval [0.5, 5]. -/
theorem zoomRun_scale_bounds (evs : List ZoomEvent) :
    1/2 ≤ (zoomRun evs).scale ∧ (zoomRun evs).scale ≤ 5 :=
  foldl_zoomStep_scale_bounds evs ZoomState.init (by norm_num [ZoomState.init])

/-! ### Claim C6: at scale exactly 1 the offset is always (0, 0) -/

theorem zoomStep_offset_inv (s : ZoomState) (e : ZoomEvent)
    (hinv : s.scale = 1 → s.position = ⟨0, 0⟩) :
    (zoomStep s e).scale = 1 → (zoomStep s e).position = ⟨0, 0⟩ := by
  intro hone
  unfold zoomStep at hone ⊢
  by_cases hc : (handleEvent s e).scale ≠ s.scale ∧ (handleEvent s e).scale = 1
  · simp [if_pos hc]
  · rw [if_neg hc] at hone ⊢
    have hsc : (handleEvent s e).scale = s.scale := by
      by_contra hne
      exact hc ⟨hne, hone⟩
    have hs1 : s.scale = 1 := by rw [← hsc]; exact hone
    have hp0 : s.position = ⟨0, 0⟩ := hinv hs1
    cases e with
    | zoomIn =>
      exfalso
      have : (handleEvent s ZoomEvent.zoomIn).scale = min (1 + 1/4 : ℚ) 5 := by
        simp [handleEvent, handleZoomIn, scaleStep, maxScale, hs1]
      rw [this] at hone
      norm_num at hone
    | zoomOut =>
      exfalso
      have : (handleEvent s ZoomEvent.zoomOut).scale = max (1 - 1/4 : ℚ) (1/2) := by
        simp [handleEvent, handleZoomOut, scaleStep, minScale, hs1]
      rw [this] at hone
      norm_num at hone
    | reset => simp [handleEvent, handleReset]
    | wheel d =>
      exfalso
      by_cases hd : d > 0
      · have : (handleEvent s (ZoomEvent.wheel d)).scale =
            max (1/2 : ℚ) (min 5 (1 + -(1/4))) := by
          simp [handleEvent, handleWheel, scaleStep, minScale, maxScale, hs1, hd]
        rw [this] at hone
        norm_num at hone
      · have : (handleEvent s (ZoomEvent.wheel d)).scale =
            max (1/2 : ℚ) (min 5 (1 + 1/4)) := by
          simp [handleEvent, handleWheel, scaleStep, minScale, maxScale, hs1, hd]
        rw [this] at hone
        norm_num at hone
    | mouseDown x y =>
      have : ¬ s.scale > 1 := by
        rw [hs1]
        exact lt_irrefl 1
      simp [handleEvent, handleMouseDown, this, hp0]
    | mouseMove x y =>
      have : ¬ (s.isDragging ∧ s.scale > 1) := by
        rintro ⟨-, hgt⟩
        rw [hs1] at hgt
        exact lt_irrefl 1 hgt
      simp [handleEvent, handleMouseMove, this, hp0]
    | mouseUp => simpa [handleEvent, handleMouseUp] using hp0
    | mouseLeave => simpa [handleEvent, handleMouseUp] using hp0
    | touchStart t x y =>
      have : ¬ (t = 1 ∧ s.scale > 1) := by
        rintro ⟨-, hgt⟩
        rw [hs1] at hgt
        exact lt_irrefl 1 hgt
      simp [handleEvent, handleTouchStart, this, hp0]
    | touchMove t x y =>
      have : ¬ (s.isDragging ∧ t = 1 ∧ s.scale > 1) := by
        rintro ⟨-, -, hgt⟩
        rw [hs1] at hgt
        exact lt_irrefl 1 hgt
      simp [handleEvent, handleTouchMove, this, hp0]
    | touchEnd => simpa [handleEvent, handleTouchEnd] using hp0

theorem foldl_zoomStep_offset_inv (evs : List ZoomEvent) :
    ∀ s : ZoomState, (s.scale = 1 → s.position = ⟨0, 0⟩) →
      ((evs.foldl zoomStep s).scale = 1 →
        (evs.foldl zoomStep s).position = ⟨0, 0⟩) := by
  induction evs with
  | nil => intro s h; simpa using h
  | cons e rest ih =>
    intro s h
    simpa using ih (zoomStep s e) (zoomStep_offset_inv s e h)

/-- C6: in every reachable state of the pan/zoom controller, if the scale
is exactly 1 then the offset is (0, 0) — in particular after a drag begun
at scale > 1 followed by zoom-out events returning the scale to 1. -/
theorem zoomRun_offset_zero_at_scale_one (evs : List ZoomEvent) :
    (zoomRun evs).scale = 1 → (zoomRun evs).position = ⟨0, 0⟩ :=
  foldl_zoomStep_offset_inv evs ZoomState.init (fun _ => rfl)

/-- Witness for C6: zoom in, drag (moving the offset to (10, 10)), then
zoom out back to scale 1 — the offset has been forced back to (0, 0). -/
theorem zoomRun_offset_zero_at_scale_one_witness :
    (zoomRun [ZoomEvent.zoomIn, ZoomEvent.mouseDown 0 0,
        ZoomEvent.mouseMove 10 10, ZoomEvent.zoomOut]).scale = 1
    ∧ (zoomRun [ZoomEvent.zoomIn, ZoomEvent.mouseDown 0 0,
        ZoomEvent.mouseMove 10 10, ZoomEvent.zoomOut]).position = ⟨0, 0⟩ := by
  have hs : (zoomRun [ZoomEvent.zoomIn, ZoomEvent.mouseDown 0 0,
      ZoomEvent.mouseMove 10 10, ZoomEvent.zoomOut]).scale = 1 := by
    norm_num [zoomRun, zoomStep, handleEvent, handleZoomIn, handleZoomOut,
      handleMouseDown, handleMouseMove, ZoomState.init, scaleStep, maxScale,
      minScale]
  exact ⟨hs, zoomRun_offset_zero_at_scale_one _ hs⟩

/-! ### Claim C7: dragging has no effect at or below scale 1 -/

/-- C7: for every state with scale ≤ 1, pointer-down and pointer-move
events (mouse, and single-touch) leave the whole state unchanged — no drag
begins and the offset never moves. -/
theorem drag_noop_at_scale_le_one (s : ZoomState) (x y : ℚ)
    (h : s.scale ≤ 1) :
    zoomStep s (ZoomEvent.mouseDown x y) = s
    ∧ zoomStep s (ZoomEvent.mouseMove x y) = s
    ∧ zoomStep s (ZoomEvent.touchStart 1 x y) = s
    ∧ zoomStep s (ZoomEvent.touchMove 1 x y) = s := by
  have hng : ¬ s.scale > 1 := not_lt.mpr h
  refine ⟨?_, ?_, ?_, ?_⟩ <;>
    simp [zoomStep, handleEvent, handleMouseDown, handleMouseMove,
      handleTouchStart, handleTouchMove, hng]

/-- A state at native scale with the drag flag adversarially set, used to
witness C7. -/
def dragStateAtOne : ZoomState :=
  { scale := 1, position := ⟨3, 4⟩, isDragging := true,
    dragStart := ⟨0, 0⟩, lastPosition := ⟨0, 0⟩ }

/-- Witness for C7: at scale 1, even with the drag flag set, pointer events
change nothing. -/
theorem drag_noop_at_scale_le_one_witness :
    dragStateAtOne.scale ≤ 1
    ∧ zoomStep dragStateAtOne (ZoomEvent.mouseMove 5 6) = dragStateAtOne
    ∧ zoomStep dragStateAtOne (ZoomEvent.mouseDown 5 6) = dragStateAtOne := by
  refine ⟨le_refl 1, ?_, ?_⟩
  · exact (drag_noop_at_scale_le_one dragStateAtOne 5 6 (le_refl 1)).2.1
  · exact (drag_noop_at_scale_le_one dragStateAtOne 5 6 (le_refl 1)).1

/-! ### Claims C8 and C10: the unsupported-payload branch

C8 quantifies over every payload whose shape matches none of the
normalizer's branches, but the effect's guard `if (mediaFile && isOpen)`
skips falsy payloads (`0`, `false`, `null`, `NaN`, …) before any branch is
tried: for those, normalization never runs, no unsupported-payload error is
set and nothing is surfaced — the same JS-truthiness gotcha as C4.  The
claim holds once restricted to truthy payloads. -/

/-- Counterexample to C8 as stated: a falsy payload (modelled by
`MediaFile.nullish`, covering `0`, `false`, `null`, `undefined`, `NaN`)
matches none of the branches, yet the guard skips the effect body entirely:
no "Unsupported media file format" error is set and the modal renders
nothing rather than an error display. -/
theorem falsy_unsupported_payload_no_error_counterexample :
    (effect1Body MediaFile.nullish true none ModalState.init
        { nextUrl := 0, live := [] }).1.error = ""
    ∧ ("" : String) ≠ "Unsupported media file format"
    ∧ render (effect1Body MediaFile.nullish true none ModalState.init
        { nextUrl := 0, live := [] }).1 = RenderView.empty :=
  ⟨rfl, by decide, rfl⟩

theorem effect1Body_unsupported (mf : MediaFile) (mt : Option String)
    (s : ModalState) (h : Host)
    (h1 : ∀ t, mf ≠ MediaFile.str t)
    (h2 : ∀ c, mf ≠ MediaFile.blob c)
    (h3 : ∀ c, mf ≠ MediaFile.buffer c)
    (h4 : ∀ d, d.truthy = true → mf ≠ MediaFile.obj (some d))
    (htr : mf.truthy = true) :
    effect1Body mf true mt s h =
      (setUnsupported s (detectFileType mt), h) := by
  cases mf with
  | str t => exact absurd rfl (h1 t)
  | blob c => exact absurd rfl (h2 c)
  | buffer c => exact absurd rfl (h3 c)
  | obj d =>
    cases d with
    | none => simp [effect1Body, MediaFile.truthy]
    | some x =>
      cases hx : x.truthy with
      | false => simp [effect1Body, MediaFile.truthy, hx]
      | true => exact absurd rfl (h4 x hx)
  | other => simp [effect1Body, MediaFile.truthy]
  | nullish => simp [MediaFile.truthy] at htr

/-- C8 (amended): a TRUTHY payload whose shape matches none of the
normalizer's branches (not a string, not a blob, not a binary buffer, and
not a wrapper exposing a truthy `data` field) makes normalization fail with
the unsupported-payload error, and that error is surfaced as the
user-visible error display.  (A falsy shape-unmatched payload is skipped by
the effect's guard and sets no error, per the counterexample.)  The effect
is a total function into states — the `try`/`catch` boundary means no fault
is ever propagated to the caller as a throw. -/
theorem unsupported_payload_surfaces_error (mf : MediaFile) (mt : Option String)
    (s : ModalState) (h : Host)
    (h1 : ∀ t, mf ≠ MediaFile.str t)
    (h2 : ∀ c, mf ≠ MediaFile.blob c)
    (h3 : ∀ c, mf ≠ MediaFile.buffer c)
    (h4 : ∀ d, d.truthy = true → mf ≠ MediaFile.obj (some d))
    (htr : mf.truthy = true) :
    (effect1Body mf true mt s h).1.error = "Unsupported media file format"
    ∧ render (effect1Body mf true mt s h).1 =
        RenderView.errorView "Unsupported media file format"
          (if jsTruthyStr s.documentUrl then some s.documentUrl else none) := by
  rw [effect1Body_unsupported mf mt s h h1 h2 h3 h4 htr]
  constructor
  · rfl
  · simp [render, setUnsupported, jsTruthyStr]

/-- Witness for C8: a truthy payload of none of the recognized shapes. -/
theorem unsupported_payload_surfaces_error_witness :
    (effect1Body MediaFile.other true none ModalState.init
        { nextUrl := 0, live := [] }).1.error = "Unsupported media file format"
    ∧ render (effect1Body MediaFile.other true none ModalState.init
        { nextUrl := 0, live := [] }).1 =
      RenderView.errorView "Unsupported media file format" none := by
  have h := unsupported_payload_surfaces_error MediaFile.other none
    ModalState.init { nextUrl := 0, live := [] }
    (fun t hc => by cases hc) (fun c hc => by cases hc)
    (fun c hc => by cases hc) (fun d _ hc => by cases hc) rfl
  refine ⟨h.1, ?_⟩
  rw [h.2]
  rfl

/-- C10: when normalization of a new payload fails on the
unsupported-payload branch, the stored locator is left unchanged —
`documentUrl` keeps the value produced by the last successful
normalization, and the error display's download fallback offers exactly
that previous locator. -/
theorem failed_normalization_keeps_previous_locator (mf : MediaFile)
    (mt : Option String) (s : ModalState) (h : Host)
    (h1 : ∀ t, mf ≠ MediaFile.str t)
    (h2 : ∀ c, mf ≠ MediaFile.blob c)
    (h3 : ∀ c, mf ≠ MediaFile.buffer c)
    (h4 : ∀ d, d.truthy = true → mf ≠ MediaFile.obj (some d))
    (htr : mf.truthy = true)
    (hprev : s.documentUrl ≠ "") :
    (effect1Body mf true mt s h).1.documentUrl = s.documentUrl
    ∧ (effect1Body mf true mt s h).2 = h
    ∧ render (effect1Body mf true mt s h).1 =
        RenderView.errorView "Unsupported media file format"
          (some s.documentUrl) := by
  rw [effect1Body_unsupported mf mt s h h1 h2 h3 h4 htr]
  refine ⟨rfl, rfl, ?_⟩
  simp [render, setUnsupported, jsTruthyStr, hprev]

/-- Witness for C10: after a successful normalization stored the locator
`"blob:"`, a failing payload leaves it in place and the fallback offers
it. -/
theorem failed_normalization_keeps_previous_locator_witness :
    (effect1Body (MediaFile.obj none) true none
        { documentUrl := "blob:", isLoading := false, error := "",
          fileType := FileType.unknown }
        { nextUrl := 1, live := ["blob:"] }).1.documentUrl = "blob:"
    ∧ render (effect1Body (MediaFile.obj none) true none
        { documentUrl := "blob:", isLoading := false, error := "",
          fileType := FileType.unknown }
        { nextUrl := 1, live := ["blob:"] }).1 =
      RenderView.errorView "Unsupported media file format" (some "blob:") := by
  have h := failed_normalization_keeps_previous_locator (MediaFile.obj none)
    none
    { documentUrl := "blob:", isLoading := false, error := "",
      fileType := FileType.unknown }
    { nextUrl := 1, live := ["blob:"] }
    (fun t hc => by cases hc) (fun c hc => by cases hc)
    (fun c hc => by cases hc) (fun d _ hc => by cases hc) rfl (by decide)
  exact ⟨h.1, h.2.2⟩

/-! ### Claim C1: how many object-URL allocations can be live

The normalization effect's cleanup closes over the `documentUrl` of the
render at which the effect last ran — one effect-run older than the
locator it is meant to release (the dependency array omits `documentUrl`).
Consequently the previous locator is NOT released at the creation of its
successor: it is released only at the next effect re-run, so two locators
can be live at once.  The invariant below bounds the damage: every live
URL is either the currently stored locator or the one captured by the
pending cleanup. -/

/-- Counterexample to C1 as stated: normalize two binary-buffer payloads in
succession while open — both allocated locators are still live afterwards,
so the first was not released at (or before) the creation of the second. -/
theorem second_allocation_leaves_first_live_counterexample :
    mkBlobUrl 0 ∈ (run [⟨MediaFile.buffer [0], true, none⟩,
        ⟨MediaFile.buffer [1], true, none⟩]).host.live
    ∧ mkBlobUrl 1 ∈ (run [⟨MediaFile.buffer [0], true, none⟩,
        ⟨MediaFile.buffer [1], true, none⟩]).host.live
    ∧ mkBlobUrl 0 ≠ mkBlobUrl 1 := by
  decide

/-- The live-set invariant: every live object URL is the currently stored
locator or the locator captured by the pending cleanup, and is a non-empty
`blob:` URL. -/
def LiveInv (σ : Sys) : Prop :=
  ∀ u ∈ σ.host.live,
    (u = σ.s.documentUrl ∨ u = σ.cleanupUrl)
    ∧ jsStartsWith u "blob:" = true ∧ u ≠ ""

theorem effect1Cleanup_subset {cu : String} {h : Host} {u : String}
    (hu : u ∈ (effect1Cleanup cu h).live) : u ∈ h.live := by
  unfold effect1Cleanup at hu
  split at hu
  · exact (List.mem_filter.mp hu).1
  · exact hu

theorem effect1Cleanup_mem {cu : String} {h : Host} {u : String}
    (hu : u ∈ (effect1Cleanup cu h).live)
    (hblob : jsStartsWith u "blob:" = true) (hne : u ≠ "") :
    u ≠ cu := by
  unfold effect1Cleanup at hu
  split at hu
  · intro he
    have hmem := List.mem_filter.mp hu
    have : u ≠ cu := by simpa using hmem.2
    exact this he
  · next hg =>
    intro he
    subst he
    exact hg (by simp [jsTruthyStr_eq_true.mpr hne, hblob])

theorem effect1Cleanup_nextUrl (cu : String) (h : Host) :
    (effect1Cleanup cu h).nextUrl = h.nextUrl := by
  unfold effect1Cleanup revokeObjectURL
  split <;> rfl

theorem effect1Body_closed (mf : MediaFile) (mt : Option String)
    (s : ModalState) (h : Host) :
    effect1Body mf false mt s h = (s, h) := by
  unfold effect1Body
  simp

theorem effect1Body_live (mf : MediaFile) (o : Bool) (mt : Option String)
    (s : ModalState) (h : Host) :
    (effect1Body mf o mt s h).2.live = h.live
    ∨ ((effect1Body mf o mt s h).2.live =
          (effect1Body mf o mt s h).1.documentUrl :: h.live
        ∧ jsStartsWith (effect1Body mf o mt s h).1.documentUrl "blob:" = true
        ∧ (effect1Body mf o mt s h).1.documentUrl ≠ "") := by
  by_cases hg : (mf.truthy && o) = true
  · cases mf with
    | str m =>
      by_cases hs : jsStartsWith m "data:" = true
      · left
        simp [effect1Body, hg, hs]
      · left
        simp only [effect1Body, hg, if_true]
        rw [if_neg (by simpa using hs)]
    | blob c =>
      have hrw : effect1Body (MediaFile.blob c) o mt s h =
          (setSuccess s (detectFileType mt) (mkBlobUrl h.nextUrl),
            { nextUrl := h.nextUrl + 1, live := mkBlobUrl h.nextUrl :: h.live }) := by
        unfold effect1Body
        rw [if_pos hg]
        rfl
      right
      rw [hrw]
      exact ⟨rfl, mkBlobUrl_startsBlob h.nextUrl, mkBlobUrl_ne_empty h.nextUrl⟩
    | buffer c =>
      have hrw : effect1Body (MediaFile.buffer c) o mt s h =
          (setSuccess s (detectFileType mt) (mkBlobUrl h.nextUrl),
            { nextUrl := h.nextUrl + 1, live := mkBlobUrl h.nextUrl :: h.live }) := by
        unfold effect1Body
        rw [if_pos hg]
        rfl
      right
      rw [hrw]
      exact ⟨rfl, mkBlobUrl_startsBlob h.nextUrl, mkBlobUrl_ne_empty h.nextUrl⟩
    | obj d =>
      cases d with
      | none => left; simp [effect1Body, hg]
      | some x =>
        cases x with
        | str ds =>
          by_cases hx : MediaData.truthy (MediaData.str ds) = true
          · left
            simp [effect1Body, hg, hx]
          · left
            simp only [effect1Body, hg, if_true]
            rw [if_neg (by simpa using hx)]
        | bin bc =>
          have hrw : effect1Body (MediaFile.obj (some (MediaData.bin bc))) o mt s h =
              (setSuccess s (detectFileType mt) (mkBlobUrl h.nextUrl),
                { nextUrl := h.nextUrl + 1, live := mkBlobUrl h.nextUrl :: h.live }) := by
            unfold effect1Body
            rw [if_pos hg]
            rfl
          right
          rw [hrw]
          exact ⟨rfl, mkBlobUrl_startsBlob h.nextUrl, mkBlobUrl_ne_empty h.nextUrl⟩
    | other => left; simp [effect1Body, hg]
    | nullish => left; simp [effect1Body, hg]
  · left
    unfold effect1Body
    rw [if_neg (by simpa using hg)]

theorem step1_LiveInv (p : Props) (σ : Sys) (hI : LiveInv σ) :
    LiveInv (step1 p σ.s.documentUrl σ)
    ∧ (p.isOpen = false →
        (step1 p σ.s.documentUrl σ).s.documentUrl = σ.s.documentUrl) := by
  unfold step1
  split
  · set h1 := effect1Cleanup σ.cleanupUrl σ.host with hh1
    set r := effect1Body p.mediaFile p.isOpen p.mimeType σ.s h1 with hr
    constructor
    · intro u hu
      rcases effect1Body_live p.mediaFile p.isOpen p.mimeType σ.s h1 with hc | ⟨hc, hb, hn⟩
      · rw [← hr] at hc
        rw [hc] at hu
        have hmem := effect1Cleanup_subset hu
        have hold := hI u hmem
        have hnotcu : u ≠ σ.cleanupUrl :=
          effect1Cleanup_mem hu hold.2.1 hold.2.2
        have : u = σ.s.documentUrl := by
          rcases hold.1 with h | h
          · exact h
          · exact absurd h hnotcu
        exact ⟨Or.inr this, hold.2.1, hold.2.2⟩
      · rw [← hr] at hc hb hn
        rw [hc] at hu
        rcases List.mem_cons.mp hu with h | h
        · exact ⟨Or.inl h, h ▸ hb, h ▸ hn⟩
        · have hmem := effect1Cleanup_subset h
          have hold := hI u hmem
          have hnotcu : u ≠ σ.cleanupUrl :=
            effect1Cleanup_mem h hold.2.1 hold.2.2
          have : u = σ.s.documentUrl := by
            rcases hold.1 with h' | h'
            · exact h'
            · exact absurd h' hnotcu
          exact ⟨Or.inr this, hold.2.1, hold.2.2⟩
    · intro hclosed
      simp only [hclosed, effect1Body_closed]
  · exact ⟨hI, fun _ => rfl⟩

theorem step2_LiveInv (p : Props) (σ : Sys) (σ₁ : Sys) (hI : LiveInv σ₁)
    (hclosed : p.isOpen = false → σ₁.s.documentUrl = σ.s.documentUrl) :
    LiveInv (step2 p.isOpen σ.s.documentUrl σ₁) := by
  unfold step2
  split
  · unfold effect2Body
    split
    · next hguard =>
      have hopen : p.isOpen = false := by
        rcases hb : p.isOpen
        · rfl
        · rw [hb] at hguard
          simp at hguard
      intro u hu
      simp only at hu
      have hmem := List.mem_filter.mp hu
      have hne : u ≠ σ.s.documentUrl := by simpa using hmem.2
      have hold := hI u hmem.1
      have : u = σ₁.cleanupUrl := by
        rcases hold.1 with h | h
        · exact absurd (h.trans (hclosed hopen)) hne
        · exact h
      exact ⟨Or.inr this, hold.2.1, hold.2.2⟩
    · intro u hu
      simp only at hu
      exact hI u hu
  · exact hI

theorem commitOnce_LiveInv (p : Props) (σ : Sys) (hI : LiveInv σ) :
    LiveInv (commitOnce p σ) := by
  unfold commitOnce
  obtain ⟨h1, h2⟩ := step1_LiveInv p σ hI
  exact step2_LiveInv p σ _ h1 h2

theorem propStep_LiveInv (p : Props) (σ : Sys) (hI : LiveInv σ) :
    LiveInv (propStep p σ) :=
  commitOnce_LiveInv p _ (commitOnce_LiveInv p _
    (commitOnce_LiveInv p _ (commitOnce_LiveInv p σ hI)))

theorem run_LiveInv (ps : List Props) : LiveInv (run ps) := by
  have hbase : LiveInv Sys.init := by
    intro u hu
    simp [Sys.init] at hu
  have hstep : ∀ σ : Sys, LiveInv σ →
      LiveInv (ps.foldl (fun σ p => propStep p σ) σ) := by
    induction ps with
    | nil => intro σ h; exact h
    | cons p rest ih => intro σ h; exact ih _ (propStep_LiveInv p σ h)
  exact hstep Sys.init hbase

/-- C1 (amended): at most two object-URL allocations can be live per modal
instance: after any sequence of prop changes, every live object URL is
either the currently stored locator or the locator captured by the pending
effect cleanup.  (Normalizing a new payload does NOT release the previous
locator at the creation of the new one — the release happens one effect
re-run later, as the counterexample shows.) -/
theorem live_locator_bound (ps : List Props) :
    ∀ u ∈ (run ps).host.live,
      u = (run ps).s.documentUrl ∨ u = (run ps).cleanupUrl :=
  fun u hu => ((run_LiveInv ps) u hu).1

/-- Witness for C1 (amended): in the two-buffer scenario both live URLs are
accounted for — the second allocation is the stored locator and the first
is the one captured by the pending cleanup. -/
theorem live_locator_bound_witness :
    mkBlobUrl 0 ∈ (run [⟨MediaFile.buffer [0], true, none⟩,
        ⟨MediaFile.buffer [1], true, none⟩]).host.live
    ∧ (mkBlobUrl 0 = (run [⟨MediaFile.buffer [0], true, none⟩,
          ⟨MediaFile.buffer [1], true, none⟩]).s.documentUrl
        ∨ mkBlobUrl 0 = (run [⟨MediaFile.buffer [0], true, none⟩,
          ⟨MediaFile.buffer [1], true, none⟩]).cleanupUrl) :=
  ⟨by decide,
   live_locator_bound [⟨MediaFile.buffer [0], true, none⟩,
     ⟨MediaFile.buffer [1], true, none⟩] (mkBlobUrl 0) (by decide)⟩

/-! ### Claim C9: close releases the live locator; reopening re-derives -/

theorem commitOnce_fix (p : Props) (σ : Sys)
    (h1 : σ.mounted1 = true)
    (h2 : σ.deps1 = (p.mediaFile, p.isOpen, p.mimeType))
    (h3 : σ.mounted2 = true)
    (h4 : σ.deps2 = (p.isOpen, σ.s.documentUrl)) :
    commitOnce p σ = σ := by
  unfold commitOnce
  have hs1 : step1 p σ.s.documentUrl σ = σ := by
    unfold step1
    rw [if_neg (show ¬(σ.mounted1 = false ∨
        σ.deps1 ≠ (p.mediaFile, p.isOpen, p.mimeType)) by
      rw [h1, h2]
      simp)]
  rw [hs1]
  unfold step2
  rw [if_neg (show ¬(σ.mounted2 = false ∨
      σ.deps2 ≠ (p.isOpen, σ.s.documentUrl)) by
    rw [h3, h4]
    simp)]

theorem propStep_close (σ : Sys) (mf : MediaFile) (mt : Option String)
    (hdeps1 : σ.deps1.2.1 = true) (hdeps2 : σ.deps2.1 = true)
    (hblob : jsStartsWith σ.s.documentUrl "blob:" = true)
    (hne : σ.s.documentUrl ≠ "") :
    propStep ⟨mf, false, mt⟩ σ =
      { s := { σ.s with documentUrl := "" }
        host := revokeObjectURL (effect1Cleanup σ.cleanupUrl σ.host)
          σ.s.documentUrl
        mounted1 := true
        deps1 := (mf, false, mt)
        cleanupUrl := σ.s.documentUrl
        mounted2 := true
        deps2 := (false, "") } := by
  have hbeq : (σ.s.documentUrl == "") = false := by
    simpa using hne
  have hguard : (!false && (jsTruthyStr σ.s.documentUrl &&
      jsStartsWith σ.s.documentUrl "blob:")) = true := by
    simp [jsTruthyStr, hbeq, hblob]
  have hs1 : step1 ⟨mf, false, mt⟩ σ.s.documentUrl σ =
      { s := σ.s
        host := effect1Cleanup σ.cleanupUrl σ.host
        mounted1 := true
        deps1 := (mf, false, mt)
        cleanupUrl := σ.s.documentUrl
        mounted2 := σ.mounted2
        deps2 := σ.deps2 } := by
    unfold step1
    rw [if_pos (Or.inr (show σ.deps1 ≠ (mf, false, mt) by
      intro he
      rw [he] at hdeps1
      exact Bool.true_eq_false.mp hdeps1.symm))]
    simp only [effect1Body_closed]
  have hc1 : commitOnce ⟨mf, false, mt⟩ σ =
      { s := { σ.s with documentUrl := "" }
        host := revokeObjectURL (effect1Cleanup σ.cleanupUrl σ.host)
          σ.s.documentUrl
        mounted1 := true
        deps1 := (mf, false, mt)
        cleanupUrl := σ.s.documentUrl
        mounted2 := true
        deps2 := (false, σ.s.documentUrl) } := by
    unfold commitOnce
    rw [hs1]
    unfold step2
    split
    · unfold effect2Body
      dsimp only
      split
      · rfl
      · next hg => exact absurd (by simp [jsTruthyStr, hbeq, hblob]) hg
    · next hnr =>
      exact absurd (Or.inr (show σ.deps2 ≠ (false, σ.s.documentUrl) by
        intro he
        rw [he] at hdeps2
        exact Bool.true_eq_false.mp hdeps2.symm)) hnr
  have hc2 : commitOnce ⟨mf, false, mt⟩
      ({ s := { σ.s with documentUrl := "" }
         host := revokeObjectURL (effect1Cleanup σ.cleanupUrl σ.host)
           σ.s.documentUrl
         mounted1 := true
         deps1 := (mf, false, mt)
         cleanupUrl := σ.s.documentUrl
         mounted2 := true
         deps2 := (false, σ.s.documentUrl) } : Sys) =
      { s := { σ.s with documentUrl := "" }
        host := revokeObjectURL (effect1Cleanup σ.cleanupUrl σ.host)
          σ.s.documentUrl
        mounted1 := true
        deps1 := (mf, false, mt)
        cleanupUrl := σ.s.documentUrl
        mounted2 := true
        deps2 := (false, "") } := by
    unfold commitOnce step1
    split
    · next hr =>
      rcases hr with hr | hr
      · exact absurd hr (by simp)
      · exact absurd rfl hr
    · unfold step2
      split
      · unfold effect2Body
        dsimp only
        split
        · next hg => exact absurd hg (by decide)
        · rfl
      · next hnr =>
        exact absurd (Or.inr (show ((false, σ.s.documentUrl) : Bool × String) ≠
          (false, "") by simp [hne])) hnr
  have hfix : commitOnce ⟨mf, false, mt⟩
      ({ s := { σ.s with documentUrl := "" }
         host := revokeObjectURL (effect1Cleanup σ.cleanupUrl σ.host)
           σ.s.documentUrl
         mounted1 := true
         deps1 := (mf, false, mt)
         cleanupUrl := σ.s.documentUrl
         mounted2 := true
         deps2 := (false, "") } : Sys) =
      { s := { σ.s with documentUrl := "" }
        host := revokeObjectURL (effect1Cleanup σ.cleanupUrl σ.host)
          σ.s.documentUrl
        mounted1 := true
        deps1 := (mf, false, mt)
        cleanupUrl := σ.s.documentUrl
        mounted2 := true
        deps2 := (false, "") } :=
    commitOnce_fix _ _ rfl rfl rfl rfl
  show commitOnce _ (commitOnce _ (commitOnce _ (commitOnce _ σ))) = _
  rw [hc1, hc2, hfix, hfix]

theorem propStep_reopen (σ : Sys) (c : List Nat) (mt' : Option String)
    (hdeps1 : σ.deps1.2.1 = false)
    (hdeps2 : σ.deps2 = (false, ""))
    (hdoc : σ.s.documentUrl = "") :
    (propStep ⟨MediaFile.buffer c, true, mt'⟩ σ).s.documentUrl =
      mkBlobUrl σ.host.nextUrl
    ∧ mkBlobUrl σ.host.nextUrl ∈
        (propStep ⟨MediaFile.buffer c, true, mt'⟩ σ).host.live := by
  have hnx : (effect1Cleanup σ.cleanupUrl σ.host).nextUrl = σ.host.nextUrl :=
    effect1Cleanup_nextUrl σ.cleanupUrl σ.host
  have hbody : effect1Body (MediaFile.buffer c) true mt' σ.s
      (effect1Cleanup σ.cleanupUrl σ.host) =
      (setSuccess σ.s (detectFileType mt') (mkBlobUrl σ.host.nextUrl),
        { nextUrl := σ.host.nextUrl + 1
          live := mkBlobUrl σ.host.nextUrl ::
            (effect1Cleanup σ.cleanupUrl σ.host).live }) := by
    unfold effect1Body
    rw [if_pos (show ((MediaFile.buffer c).truthy && true) = true from rfl)]
    show (setSuccess σ.s (detectFileType mt')
        (mkBlobUrl (effect1Cleanup σ.cleanupUrl σ.host).nextUrl),
      ({ nextUrl := (effect1Cleanup σ.cleanupUrl σ.host).nextUrl + 1
         live := mkBlobUrl (effect1Cleanup σ.cleanupUrl σ.host).nextUrl ::
           (effect1Cleanup σ.cleanupUrl σ.host).live } : Host)) = _
    rw [hnx]
  have hs1 : step1 ⟨MediaFile.buffer c, true, mt'⟩ σ.s.documentUrl σ =
      { s := setSuccess σ.s (detectFileType mt') (mkBlobUrl σ.host.nextUrl)
        host := { nextUrl := σ.host.nextUrl + 1
                  live := mkBlobUrl σ.host.nextUrl ::
                    (effect1Cleanup σ.cleanupUrl σ.host).live }
        mounted1 := true
        deps1 := (MediaFile.buffer c, true, mt')
        cleanupUrl := σ.s.documentUrl
        mounted2 := σ.mounted2
        deps2 := σ.deps2 } := by
    unfold step1
    rw [if_pos (Or.inr (show σ.deps1 ≠ (MediaFile.buffer c, true, mt') by
      intro he
      rw [he] at hdeps1
      exact Bool.true_eq_false.mp hdeps1))]
    dsimp only
    rw [hbody]
  have hU : mkBlobUrl σ.host.nextUrl ≠ "" := mkBlobUrl_ne_empty σ.host.nextUrl
  have hsucc : (setSuccess σ.s (detectFileType mt')
      (mkBlobUrl σ.host.nextUrl)).documentUrl = mkBlobUrl σ.host.nextUrl := rfl
  have hc1 : commitOnce ⟨MediaFile.buffer c, true, mt'⟩ σ =
      { s := setSuccess σ.s (detectFileType mt') (mkBlobUrl σ.host.nextUrl)
        host := { nextUrl := σ.host.nextUrl + 1
                  live := mkBlobUrl σ.host.nextUrl ::
                    (effect1Cleanup σ.cleanupUrl σ.host).live }
        mounted1 := true
        deps1 := (MediaFile.buffer c, true, mt')
        cleanupUrl := σ.s.documentUrl
        mounted2 := true
        deps2 := (true, σ.s.documentUrl) } := by
    unfold commitOnce
    rw [hs1]
    unfold step2
    split
    · unfold effect2Body
      dsimp only
      split
      · next hg => exact absurd hg (by simp)
      · rfl
    · next hnr =>
      exact absurd (Or.inr (show σ.deps2 ≠ (true, σ.s.documentUrl) by
        rw [hdeps2]
        intro he
        exact Bool.false_eq_true.mp (congrArg Prod.fst he))) hnr
  have hc2 : commitOnce ⟨MediaFile.buffer c, true, mt'⟩
      ({ s := setSuccess σ.s (detectFileType mt') (mkBlobUrl σ.host.nextUrl)
         host := { nextUrl := σ.host.nextUrl + 1
                   live := mkBlobUrl σ.host.nextUrl ::
                     (effect1Cleanup σ.cleanupUrl σ.host).live }
         mounted1 := true
         deps1 := (MediaFile.buffer c, true, mt')
         cleanupUrl := σ.s.documentUrl
         mounted2 := true
         deps2 := (true, σ.s.documentUrl) } : Sys) =
      { s := setSuccess σ.s (detectFileType mt') (mkBlobUrl σ.host.nextUrl)
        host := { nextUrl := σ.host.nextUrl + 1
                  live := mkBlobUrl σ.host.nextUrl ::
                    (effect1Cleanup σ.cleanupUrl σ.host).live }
        mounted1 := true
        deps1 := (MediaFile.buffer c, true, mt')
        cleanupUrl := σ.s.documentUrl
        mounted2 := true
        deps2 := (true, mkBlobUrl σ.host.nextUrl) } := by
    unfold commitOnce step1
    split
    · next hr =>
      rcases hr with hr | hr
      · exact absurd hr (by simp)
      · exact absurd rfl hr
    · unfold step2
      split
      · unfold effect2Body
        dsimp only
        split
        · next hg => exact absurd hg (by simp)
        · rfl
      · next hnr =>
        exact absurd (Or.inr (show ((true, σ.s.documentUrl) : Bool × String) ≠
          (true, (setSuccess σ.s (detectFileType mt')
            (mkBlobUrl σ.host.nextUrl)).documentUrl) by
          rw [hsucc, hdoc]
          intro he
          exact hU (congrArg Prod.snd he).symm)) hnr
  have hfix : commitOnce ⟨MediaFile.buffer c, true, mt'⟩
      ({ s := setSuccess σ.s (detectFileType mt') (mkBlobUrl σ.host.nextUrl)
         host := { nextUrl := σ.host.nextUrl + 1
                   live := mkBlobUrl σ.host.nextUrl ::
                     (effect1Cleanup σ.cleanupUrl σ.host).live }
         mounted1 := true
         deps1 := (MediaFile.buffer c, true, mt')
         cleanupUrl := σ.s.documentUrl
         mounted2 := true
         deps2 := (true, mkBlobUrl σ.host.nextUrl) } : Sys) =
      { s := setSuccess σ.s (detectFileType mt') (mkBlobUrl σ.host.nextUrl)
        host := { nextUrl := σ.host.nextUrl + 1
                  live := mkBlobUrl σ.host.nextUrl ::
                    (effect1Cleanup σ.cleanupUrl σ.host).live }
        mounted1 := true
        deps1 := (MediaFile.buffer c, true, mt')
        cleanupUrl := σ.s.documentUrl
        mounted2 := true
        deps2 := (true, mkBlobUrl σ.host.nextUrl) } :=
    commitOnce_fix _ _ rfl rfl rfl rfl
  have hfinal : propStep ⟨MediaFile.buffer c, true, mt'⟩ σ =
      { s := setSuccess σ.s (detectFileType mt') (mkBlobUrl σ.host.nextUrl)
        host := { nextUrl := σ.host.nextUrl + 1
                  live := mkBlobUrl σ.host.nextUrl ::
                    (effect1Cleanup σ.cleanupUrl σ.host).live }
        mounted1 := true
        deps1 := (MediaFile.buffer c, true, mt')
        cleanupUrl := σ.s.documentUrl
        mounted2 := true
        deps2 := (true, mkBlobUrl σ.host.nextUrl) } := by
    show commitOnce _ (commitOnce _ (commitOnce _ (commitOnce _ σ))) = _
    rw [hc1, hc2, hfix, hfix]
  rw [hfinal]
  exact ⟨rfl, List.mem_cons_self _ _⟩

/-- C9: when the modal transitions from open to closed while an allocated
object-URL locator is live, that locator is released and the stored locator
state is cleared; reopening with a (buffer) payload runs normalization
again and derives a fresh locator — the next URL the registry mints, never
the released one. -/
theorem close_releases_and_reopen_rederives (σ : Sys) (mf : MediaFile)
    (mt mt' : Option String) (c : List Nat)
    (hdeps1 : σ.deps1.2.1 = true) (hdeps2 : σ.deps2.1 = true)
    (hblob : jsStartsWith σ.s.documentUrl "blob:" = true)
    (hne : σ.s.documentUrl ≠ "")
    (hfresh : ∀ j, σ.s.documentUrl = mkBlobUrl j → j < σ.host.nextUrl) :
    ((propStep ⟨mf, false, mt⟩ σ).s.documentUrl = ""
      ∧ σ.s.documentUrl ∉ (propStep ⟨mf, false, mt⟩ σ).host.live)
    ∧ ((propStep ⟨MediaFile.buffer c, true, mt'⟩
          (propStep ⟨mf, false, mt⟩ σ)).s.documentUrl =
        mkBlobUrl σ.host.nextUrl
      ∧ mkBlobUrl σ.host.nextUrl ∈
          (propStep ⟨MediaFile.buffer c, true, mt'⟩
            (propStep ⟨mf, false, mt⟩ σ)).host.live
      ∧ (propStep ⟨MediaFile.buffer c, true, mt'⟩
          (propStep ⟨mf, false, mt⟩ σ)).s.documentUrl ≠ σ.s.documentUrl) := by
  have hclose := propStep_close σ mf mt hdeps1 hdeps2 hblob hne
  constructor
  · rw [hclose]
    constructor
    · rfl
    · intro hmem
      have := (List.mem_filter.mp hmem).2
      simp at this
  · have hreo := propStep_reopen (propStep ⟨mf, false, mt⟩ σ) c mt'
      (by rw [hclose]) (by rw [hclose]) (by rw [hclose])
    have hnx : (propStep ⟨mf, false, mt⟩ σ).host.nextUrl = σ.host.nextUrl := by
      rw [hclose]
      show (effect1Cleanup σ.cleanupUrl σ.host).nextUrl = σ.host.nextUrl
      exact effect1Cleanup_nextUrl σ.cleanupUrl σ.host
    rw [hnx] at hreo
    refine ⟨hreo.1, hreo.2, ?_⟩
    rw [hreo.1]
    intro he
    exact lt_irrefl σ.host.nextUrl (hfresh σ.host.nextUrl he.symm)

/-- Witness for C9: open with a buffer (locator `"blob:"` live), close (it
is released and cleared), reopen with the same payload (a fresh locator
`"blob:u"` is derived). -/
theorem close_releases_and_reopen_rederives_witness :
    ((run [⟨MediaFile.buffer [7], true, none⟩]).deps1.2.1 = true
      ∧ (run [⟨MediaFile.buffer [7], true, none⟩]).deps2.1 = true
      ∧ jsStartsWith (run [⟨MediaFile.buffer [7], true, none⟩]).s.documentUrl
          "blob:" = true
      ∧ (run [⟨MediaFile.buffer [7], true, none⟩]).s.documentUrl ≠ "")
    ∧ ((propStep ⟨MediaFile.buffer [7], false, none⟩
          (run [⟨MediaFile.buffer [7], true, none⟩])).s.documentUrl = ""
      ∧ (run [⟨MediaFile.buffer [7], true, none⟩]).s.documentUrl ∉
          (propStep ⟨MediaFile.buffer [7], false, none⟩
            (run [⟨MediaFile.buffer [7], true, none⟩])).host.live
      ∧ (propStep ⟨MediaFile.buffer [7], true, none⟩
          (propStep ⟨MediaFile.buffer [7], false, none⟩
            (run [⟨MediaFile.buffer [7], true, none⟩]))).s.documentUrl =
        mkBlobUrl 1
      ∧ (propStep ⟨MediaFile.buffer [7], true, none⟩
          (propStep ⟨MediaFile.buffer [7], false, none⟩
            (run [⟨MediaFile.buffer [7], true, none⟩]))).s.documentUrl ≠
        (run [⟨MediaFile.buffer [7], true, none⟩]).s.documentUrl) := by
  have hfresh : ∀ j, (run [⟨MediaFile.buffer [7], true, none⟩]).s.documentUrl =
      mkBlobUrl j → j < (run [⟨MediaFile.buffer [7], true, none⟩]).host.nextUrl := by
    intro j hj
    have h0 : (run [⟨MediaFile.buffer [7], true, none⟩]).s.documentUrl =
        mkBlobUrl 0 := by decide
    have hj0 : j = 0 := (mkBlobUrl_inj (h0.symm.trans hj)).symm
    have h1 : (run [⟨MediaFile.buffer [7], true, none⟩]).host.nextUrl = 1 := by
      decide
    rw [hj0, h1]
    exact Nat.zero_lt_one
  have h := close_releases_and_reopen_rederives
    (run [⟨MediaFile.buffer [7], true, none⟩]) (MediaFile.buffer [7])
    none none [7] (by decide) (by decide) (by decide) (by decide) hfresh
  refine ⟨⟨by decide, by decide, by decide, by decide⟩,
    h.1.1, h.1.2, ?_, h.2.2.2⟩
  have h1 : (run [⟨MediaFile.buffer [7], true, none⟩]).host.nextUrl = 1 := by
    decide
  rw [h.2.1, h1]

end Preview
